import Mathlib

/-!
Verification of the pool-maintenance service-report frontend
(`src/unnamed/part_000`): the report state / derived-field engine
(flags, overdue check, gross profit, working-set partition, filtering),
the debounced field-update scheduler, and the client-side PDF pagination
engine of `generatePDF`.

Times are modelled as integer epoch milliseconds; the JavaScript `Date`
arithmetic of the source operates on exactly such values.  The jsPDF page
height for A4 portrait in millimetres is 297 (the library's exact value
297.00008... makes the same comparisons on the integer-valued vertical
cursor this layout produces).
-/

namespace RogReport

/-- A service report, mirroring the fields of the backend record that the
frontend logic reads.  `status` is a free-form string (the backend enforces
no enum), dates are epoch milliseconds, `completion_date` is nullable. -/
structure Report where
  id : Nat
  client_name : String
  client_address : String
  employee_id : String
  employee_name : String
  status : String
  request_date : Int
  completion_date : Option Int
  total_cost : Option ℚ
  parts_cost : Option ℚ
  admin_notes : String
  employee_notes : String
deriving Repr, DecidableEq

/-- Milliseconds in one day, the divisor `1000 * 60 * 60 * 24` used by
`isReportOverdue` and `getReportFlag`. -/
def msPerDay : Int := 1000 * 60 * 60 * 24

/-- `Math.ceil (a / b)` for integer `a` and positive integer `b`:
the ceiling of the exact rational quotient, via `-⌊-a / b⌋`. -/
def jsCeilDiv (a b : Int) : Int := -((-a).fdiv b)

/-- `diffDays` as computed by both `isReportOverdue` and `getReportFlag`:
`Math.ceil ((today - reportDate) / (1000*60*60*24))`. -/
def reportDiffDays (r : Report) (now : Int) : Int :=
  jsCeilDiv (now - r.request_date) msPerDay

/-- The two flag emojis that `getReportFlag` can return. -/
inductive Flag where
  | green
  | red
deriving Repr, DecidableEq

/-- `isReportOverdue` (part_000 lines 854-860): `diffDays >= 2`. -/
def isReportOverdue (r : Report) (now : Int) : Bool :=
  decide (2 ≤ reportDiffDays r now)

/-- `getReportFlag` (part_000 lines 862-874): green when `diffDays <= 1`,
red when `diffDays >= 2`, and a trailing `return null`. -/
def getReportFlag (r : Report) (now : Int) : Option Flag :=
  let diffDays := reportDiffDays r now
  if diffDays ≤ 1 then some .green
  else if 2 ≤ diffDays then some .red
  else none

/-- A report record with every field at a neutral default, used to build
concrete test inputs. -/
def baseReport : Report where
  id := 0
  client_name := "Client"
  client_address := "Address"
  employee_id := "e1"
  employee_name := "Employee"
  status := "completed"
  request_date := 0
  completion_date := none
  total_cost := none
  parts_cost := none
  admin_notes := ""
  employee_notes := ""

/-- `fetchReports` (part_000 lines 637-646) keeps the reports whose
`status` is not `completed`: the active working set. -/
def activeWorkingSet (rs : List Report) : List Report :=
  rs.filter (fun r => r.status != "completed")

/-- `fetchCompletedReports` (part_000 lines 1615-1624) keeps the reports
whose `status` is `completed`: the completed working set. -/
def completedWorkingSet (rs : List Report) : List Report :=
  rs.filter (fun r => r.status == "completed")

/-- `String.prototype.toLowerCase` restricted to the ASCII letters
appearing in names. -/
def jsToLower (s : String) : String := String.mk (s.data.map Char.toLower)

/-- Whether the first list is an initial segment of the second. -/
def leadMatch : List Char → List Char → Bool
  | [], _ => true
  | _ :: _, [] => false
  | a :: as, b :: bs => a == b && leadMatch as bs

/-- Whether `needle` occurs contiguously anywhere in the second list. -/
def subSearch (needle : List Char) : List Char → Bool
  | [] => needle.isEmpty
  | b :: bs => leadMatch needle (b :: bs) || subSearch needle bs

/-- `hay.includes(needle)` of JavaScript: contiguous substring test. -/
def jsIncludes (hay needle : String) : Bool := subSearch needle.data hay.data

/-- `filterReports` of the ServicesConcluded component (part_000 lines
1597-1613): when `searchClient` is non-empty keep reports whose
`client_name` equals it exactly; then, when `searchEmployee` is non-empty,
keep reports whose lower-cased `employee_name` contains the lower-cased
criterion as a substring. -/
def filterConcluded (searchClient searchEmployee : String) (rs : List Report) :
    List Report :=
  let rs1 := if searchClient != "" then
    rs.filter (fun r => r.client_name == searchClient) else rs
  if searchEmployee != "" then
    rs1.filter (fun r => jsIncludes (jsToLower r.employee_name) (jsToLower searchEmployee))
  else rs1

/-- The effective date used by the PDF filter:
`new Date(report.completion_date || report.request_date)`. -/
def effectiveDate (r : Report) : Int := r.completion_date.getD r.request_date

/-- The report filter of `generateReport` (part_000 lines 2652-2675):
status must be `completed`, the effective date must lie in
`[startDate, endDate]` inclusive, then an optional exact `client_name`
filter and an optional exact `employee_id` filter are applied (each
skipped when its criterion is the empty string or the sentinel `all`). -/
def pdfFilter (startDate endDate : Int) (selectedClient selectedEmployee : String)
    (allReports : List Report) : List Report :=
  let reports := allReports.filter (fun r =>
    r.status == "completed" &&
    decide (startDate ≤ effectiveDate r) && decide (effectiveDate r ≤ endDate))
  let reports := if selectedClient != "" && selectedClient != "all" then
    reports.filter (fun r => r.client_name == selectedClient) else reports
  if selectedEmployee != "" && selectedEmployee != "all" then
    reports.filter (fun r => r.employee_id == selectedEmployee) else reports

/-- The observable outcome of `generateReport` (part_000 lines 2637-2693):
either an alert that dates are missing, an alert that no report matched,
or a generated-and-saved PDF built from the filtered reports. -/
inductive GenerateOutcome where
  | alertSelectDates
  | alertNoReports
  | generatedPDF (reports : List Report) (fileName : String)
deriving Repr, DecidableEq

/-- `generateReport` (part_000 lines 2637-2693): abort with an alert when a
date is missing; filter; abort with an alert when the filtered list is
empty; otherwise generate and save the PDF under
`service_reports_<start>_to_<end>.pdf`. -/
def generateReport (startDate endDate : Option Int)
    (selectedClient selectedEmployee : String) (allReports : List Report) :
    GenerateOutcome :=
  match startDate, endDate with
  | some s, some e =>
    let reports := pdfFilter s e selectedClient selectedEmployee allReports
    if reports.length = 0 then .alertNoReports
    else .generatedPDF reports
      ("service_reports_" ++ toString s ++ "_to_" ++ toString e ++ ".pdf")
  | _, _ => .alertSelectDates

/-- JavaScript `x || 0` on a nullable numeric field: the value when
present, else `0`. -/
def jsOr0 (x : Option ℚ) : ℚ := x.getD 0

/-- The gross-profit computation of the ServiceReports financial panel
(part_000 line 1458): `(report.total_cost || 0) - (report.parts_cost || 0)`. -/
def computeGrossProfit (total parts : Option ℚ) : ℚ := jsOr0 total - jsOr0 parts

/-- Rounding to 2 decimal places, the numeric effect of
`Intl.NumberFormat` with `minimumFractionDigits: 2, maximumFractionDigits: 2`. -/
def roundTo2 (x : ℚ) : ℚ := ((round (x * 100) : ℤ) : ℚ) / 100

/-- The numeric value displayed by `formatCurrency` (part_000 lines
230-235): `amount || 0` rounded to 2 decimal places. -/
def formatCurrencyValue (amount : Option ℚ) : ℚ := roundTo2 (jsOr0 amount)

/-- The read-only Gross Profit field (part_000 lines 1454-1462):
`formatCurrency((total_cost || 0) - (parts_cost || 0))`. -/
def displayedGrossProfit (total parts : Option ℚ) : ℚ :=
  formatCurrencyValue (some (computeGrossProfit total parts))

/-- The layout inputs of one report container in `generatePDF`:
whether `total_cost || parts_cost` is truthy (the financial column),
the number of wrapped description lines returned by `splitTextToSize`,
and which of the two notes are present.  Photos never move the vertical
cursor (part_000 lines 2842-2879 draw at fixed offsets), so they do not
appear here. -/
structure PDFItem where
  hasFinancial : Bool
  descLines : Nat
  hasAdminNotes : Bool
  hasEmployeeNotes : Bool
deriving Repr, DecidableEq

/-- The loop state of `generatePDF` (part_000 lines 2718-2883): the
vertical cursor `yPosition`, the per-page counter `reportsPerPage`, and
the container count of every page, current page first. -/
structure LayoutState where
  y : Nat
  reportsPerPage : Nat
  pagesRev : List Nat
deriving Repr, DecidableEq

/-- A4 portrait page height in millimetres as reported by jsPDF. -/
def pageHeight : Nat := 297

/-- `const maxReportsPerPage = 3` of part_000 line 2720. -/
def maxReportsPerPage : Nat := 3

/-- One iteration of the `generatePDF` report loop (part_000 lines
2722-2883): start a new page when `reportsPerPage >= maxReportsPerPage ||
yPosition > pageHeight - 100` (resetting the cursor to 20); then advance
the cursor by `+15` (header band), `+max(leftY, rightY) + 3` where the
left column always holds 3 rows of 7 and the right column holds 3 rows of
7 only when financial data is truthy, `+18` or `+12` for the (truncated)
description, `+6` per present note, and finally `+containerHeight + 10 =
+95`; then increment the per-page counter. -/
def placeItem (s : LayoutState) (it : PDFItem) : LayoutState :=
  let s := if maxReportsPerPage ≤ s.reportsPerPage ∨ pageHeight - 100 < s.y then
    { y := 20, reportsPerPage := 0, pagesRev := 0 :: s.pagesRev } else s
  let y := s.y + 15
  let leftY := y + 3 * 7
  let rightY := y + (if it.hasFinancial then 3 * 7 else 0)
  let y := Nat.max leftY rightY + 3
  let y := y + (if 2 < it.descLines then 18 else 12)
  let y := y + (if it.hasAdminNotes then 6 else 0)
  let y := y + (if it.hasEmployeeNotes then 6 else 0)
  let y := y + (85 + 10)
  { y := y, reportsPerPage := s.reportsPerPage + 1,
    pagesRev := match s.pagesRev with
      | [] => [1]
      | c :: rest => (c + 1) :: rest }

/-- Container counts per page produced by `generatePDF` for a filtered
report list: the loop starts on page 1 with `yPosition = 45` (below the
banner header) and an empty page. -/
def paginate (items : List PDFItem) : List Nat :=
  (items.foldl placeItem { y := 45, reportsPerPage := 0, pagesRev := [0] }).pagesRev.reverse

/-- The three fields that are persisted through a debounce timer: the two
financial inputs share the global handle `window.financialTimeout`
(part_000 lines 1421-1424 and 1444-1447) and the admin notes use the
global handle `window.notesTimeout` (part_000 lines 1478-1481). -/
inductive DebField where
  | total_cost
  | parts_cost
  | admin_notes
deriving Repr, DecidableEq

/-- Which global timer handle an edit to this field goes through. -/
def DebField.isFinancial : DebField → Bool
  | .total_cost => true
  | .parts_cost => true
  | .admin_notes => false

/-- One user edit: its time (ms), the report it targets, the field, and
the typed value. -/
structure FieldEdit where
  t : Nat
  reportId : Nat
  field : DebField
  value : Nat
deriving Repr, DecidableEq

/-- A scheduled persistence call: when it fires and which (report, field,
value) update it will send. -/
structure PendingFlush where
  fire : Nat
  reportId : Nat
  field : DebField
  value : Nat
deriving Repr, DecidableEq

/-- The flush scheduled by `setTimeout(..., 1000)` for an edit. -/
def FieldEdit.pending (e : FieldEdit) : PendingFlush :=
  ⟨e.t + 1000, e.reportId, e.field, e.value⟩

/-- The timer state of the source: exactly one global slot per update
class (`window.financialTimeout`, `window.notesTimeout`), plus the
flushes that have already reached the backend. -/
structure TimerState where
  financialTimeout : Option PendingFlush
  notesTimeout : Option PendingFlush
  flushed : List PendingFlush
deriving Repr, DecidableEq

/-- A timer slot at time `t`: fires (and empties) when its deadline has
passed, else stays pending. -/
def fireSlot (slot : Option PendingFlush) (t : Nat) :
    List PendingFlush × Option PendingFlush :=
  match slot with
  | some p => if p.fire ≤ t then ([p], none) else ([], some p)
  | none => ([], none)

/-- Let both global timers fire if their deadlines have passed by time
`t` (the event loop runs due callbacks before the next edit handler). -/
def fireDue (s : TimerState) (t : Nat) : TimerState :=
  let f := fireSlot s.financialTimeout t
  let n := fireSlot s.notesTimeout t
  { financialTimeout := f.2, notesTimeout := n.2, flushed := s.flushed ++ f.1 ++ n.1 }

/-- One edit handler (part_000 lines 1414-1448 and 1470-1482): after due
timers fire, `clearTimeout` + `setTimeout` overwrite the single global
slot of the edit's class with a flush scheduled 1000 ms later. -/
def applyEdit (s : TimerState) (e : FieldEdit) : TimerState :=
  let s := fireDue s e.t
  if e.field.isFinancial then { s with financialTimeout := some e.pending }
  else { s with notesTimeout := some e.pending }

/-- After the burst, remaining timers eventually fire. -/
def drainTimers (s : TimerState) : List PendingFlush :=
  s.flushed ++ (s.financialTimeout.elim [] fun p => [p])
    ++ (s.notesTimeout.elim [] fun p => [p])

/-- No timer pending, nothing flushed. -/
def initTimers : TimerState := ⟨none, none, []⟩

/-- The sequence of persistence calls that reach the backend when the
given edits are processed in order and all surviving timers then fire. -/
def runDebounce (es : List FieldEdit) : List PendingFlush :=
  drainTimers (es.foldl applyEdit initTimers)

/-- Modelled from the spec's words, for comparison with `runDebounce`:
a timer state keyed by (report, field) pair — "a new call for the same
field cancels any pending timer for that field", with "independent
timers" for different pairs. -/
structure PairTimerState where
  pending : List PendingFlush
  flushed : List PendingFlush
deriving Repr, DecidableEq

/-- The per-pair edit handler of the spec's words: due timers fire, then
only the pending flush of the same (report, field) pair is cancelled
before the new flush is scheduled. -/
def pairApplyEdit (s : PairTimerState) (e : FieldEdit) : PairTimerState :=
  let due := s.pending.filter (fun p => decide (p.fire ≤ e.t))
  let rest := s.pending.filter (fun p => decide (e.t < p.fire))
  { pending := (rest.filter (fun p =>
      !(decide (p.reportId = e.reportId ∧ p.field = e.field)))) ++ [e.pending],
    flushed := s.flushed ++ due }

/-- The flushes reaching the backend under the spec's per-pair timer
reading. -/
def pairRunDebounce (es : List FieldEdit) : List PendingFlush :=
  let s := es.foldl pairApplyEdit ⟨[], []⟩
  s.flushed ++ s.pending

/-- The last edit in the list whose field satisfies `cls`, starting from
accumulator `acc`. -/
def lastOf (cls : DebField → Bool) : Option FieldEdit → List FieldEdit → Option FieldEdit
  | acc, [] => acc
  | acc, e :: es => lastOf cls (if cls e.field then some e else acc) es

/-- The flush of an optional edit. -/
def optFlush : Option FieldEdit → List PendingFlush
  | none => []
  | some e => [e.pending]

/-- Helper: the green branch of `getReportFlag` fires whenever `diffDays ≤ 1`. -/
theorem flag_green (r : Report) (now : Int) (h : reportDiffDays r now ≤ 1) :
    getReportFlag r now = some .green := by
  simp [getReportFlag, h]

/-- Helper: the red branch of `getReportFlag` fires whenever `2 ≤ diffDays`. -/
theorem flag_red (r : Report) (now : Int) (h : 2 ≤ reportDiffDays r now) :
    getReportFlag r now = some .red := by
  have h1 : ¬ reportDiffDays r now ≤ 1 := by omega
  simp [getReportFlag, h1, h]

/-- C5: `getReportFlag` returns the green flag whenever
`diffDays = ceil((now - request_date)/day) ≤ 1` and the red flag whenever
`diffDays ≥ 2`; in particular with `now = 2024-03-10T12:00Z`
(epoch ms 1710072000000), a `request_date` of `2024-03-09T12:00Z`
(1709985600000, exactly 1 day before) yields green and a `request_date` of
`2024-03-08T12:00Z` (1709899200000, exactly 2 days before) yields red. -/
theorem getReportFlag_thresholds :
    (∀ (r : Report) (now : Int), reportDiffDays r now ≤ 1 →
      getReportFlag r now = some .green) ∧
    (∀ (r : Report) (now : Int), 2 ≤ reportDiffDays r now →
      getReportFlag r now = some .red) ∧
    getReportFlag { baseReport with request_date := 1709985600000 } 1710072000000
      = some .green ∧
    getReportFlag { baseReport with request_date := 1709899200000 } 1710072000000
      = some .red := by
  refine ⟨flag_green, flag_red, by decide, by decide⟩

/-- Witness for C5 at a concrete input: a report requested 43000000 ms
(about half a day) before `now` has `diffDays = 1` and is flagged green. -/
theorem getReportFlag_thresholds_witness :
    getReportFlag { baseReport with request_date := 1710029000000 } 1710072000000
      = some Flag.green :=
  getReportFlag_thresholds.1 _ _ (by decide)

/-- C6: `isReportOverdue` agrees with `getReportFlag` on every report and
every evaluation time: it returns `true` exactly when the flag is red.
Both functions compute the same `diffDays` and use the same `≥ 2`
threshold. -/
theorem isReportOverdue_iff_red_flag (r : Report) (now : Int) :
    isReportOverdue r now = true ↔ getReportFlag r now = some .red := by
  by_cases h : 2 ≤ reportDiffDays r now
  · simp [isReportOverdue, h, flag_red r now h]
  · have h1 : reportDiffDays r now ≤ 1 := by omega
    simp [isReportOverdue, h, flag_green r now h1]

/-- C10: `getReportFlag` always returns the green or the red flag; the
trailing `return null` branch is unreachable, because `diffDays` is an
integer and the guards `diffDays ≤ 1` and `diffDays ≥ 2` cover ℤ. -/
theorem getReportFlag_never_none (r : Report) (now : Int) :
    getReportFlag r now = some .green ∨ getReportFlag r now = some .red := by
  by_cases h : reportDiffDays r now ≤ 1
  · exact Or.inl (flag_green r now h)
  · exact Or.inr (flag_red r now (by omega))

/-- C8: splitting the fetched collection into the active working set
(`status != completed`, `fetchReports`) and the completed working set
(`status == completed`, `fetchCompletedReports`) is a strict partition:
every report of the collection is in exactly one of the two sets, none is
in both, and no report is lost (the lengths add up). -/
theorem loadReports_partition (rs : List Report) :
    (∀ r : Report, r ∈ rs ↔ r ∈ activeWorkingSet rs ∨ r ∈ completedWorkingSet rs) ∧
    (∀ r : Report, ¬ (r ∈ activeWorkingSet rs ∧ r ∈ completedWorkingSet rs)) ∧
    (activeWorkingSet rs).length + (completedWorkingSet rs).length = rs.length := by
  refine ⟨?_, ?_, ?_⟩
  · intro r
    by_cases h : r.status = "completed" <;>
      simp [activeWorkingSet, completedWorkingSet, List.mem_filter, h]
  · intro r
    by_cases h : r.status = "completed" <;>
      simp [activeWorkingSet, completedWorkingSet, List.mem_filter, h]
  · induction rs with
    | nil => rfl
    | cons r rs ih =>
      by_cases h : r.status = "completed" <;>
        simp [activeWorkingSet, completedWorkingSet, List.filter_cons, h] at ih ⊢ <;>
        omega

/-- C9: `filterConcluded` keeps exactly the reports whose `client_name`
equals the client criterion verbatim and whose `employee_name` contains the
employee criterion case-insensitively; it preserves the input order
(the output is a sublist of the input); client matching is exact, so the
criterion `Smith Pool` rejects a report of client `Smith Pools`; employee
matching is a case-insensitive substring test, so `jo` matches `John`. -/
theorem filterConcluded_spec :
    (∀ (sc se : String) (rs : List Report) (r : Report), sc ≠ "" → se ≠ "" →
      (r ∈ filterConcluded sc se rs ↔
        r ∈ rs ∧ r.client_name = sc ∧
        jsIncludes (jsToLower r.employee_name) (jsToLower se) = true)) ∧
    (∀ sc se rs, (filterConcluded sc se rs).Sublist rs) ∧
    (filterConcluded "Smith Pool" "" [{ baseReport with client_name := "Smith Pools" }] = []) ∧
    jsIncludes (jsToLower "John") (jsToLower "jo") = true := by
  refine ⟨?_, ?_, by decide, by decide⟩
  · intro sc se rs r hsc hse
    have h1 : (sc != "") = true := by simpa using hsc
    have h2 : (se != "") = true := by simpa using hse
    simp only [filterConcluded, h1, h2, if_true, List.mem_filter, beq_iff_eq, and_assoc]
  · intro sc se rs
    unfold filterConcluded
    split <;> split <;>
      first
        | exact List.Sublist.refl _
        | exact List.filter_sublist _
        | exact (List.filter_sublist _).trans (List.filter_sublist _)

/-- Witness for C9: with criteria `Smith Pool` / `jo`, a report of client
`Smith Pool` and employee `John` passes the concluded-tab filter. -/
theorem filterConcluded_spec_witness :
    ({ baseReport with client_name := "Smith Pool", employee_name := "John" } : Report) ∈
      filterConcluded "Smith Pool" "jo"
        [{ baseReport with client_name := "Smith Pool", employee_name := "John" }] :=
  (filterConcluded_spec.1 "Smith Pool" "jo" _ _ (by decide) (by decide)).mpr
    ⟨List.mem_singleton.mpr rfl, rfl, by decide⟩

/-- C3: the PDF input filter keeps a report exactly when it belongs to the
fetched collection, has status `completed`, its effective date
(`completion_date` falling back to `request_date`) lies in the inclusive
range `[startDate, endDate]`, its `client_name` equals the client criterion
whenever that criterion is active (non-empty and not `all`), and its
`employee_id` equals the employee criterion whenever that one is active. -/
theorem pdfFilter_keeps_exactly (s e : Int) (sc se : String) (rs : List Report)
    (r : Report) :
    r ∈ pdfFilter s e sc se rs ↔
      r ∈ rs ∧ r.status = "completed" ∧
      s ≤ effectiveDate r ∧ effectiveDate r ≤ e ∧
      (sc ≠ "" → sc ≠ "all" → r.client_name = sc) ∧
      (se ≠ "" → se ≠ "all" → r.employee_id = se) := by
  have hmem : ∀ (b : Bool) (p : Report → Bool) (l : List Report),
      (r ∈ if b then l.filter p else l) ↔ r ∈ l ∧ (b = true → p r = true) := by
    intro b p l; cases b <;> simp [List.mem_filter]
  simp only [pdfFilter, hmem, List.mem_filter]
  simp only [Bool.and_eq_true, decide_eq_true_eq, bne_iff_ne, ne_eq, beq_iff_eq, and_imp,
    and_assoc]

/-- Witness for C3 at a concrete input: with an active client criterion
`Smith Pool` and inactive employee criterion, a completed report of client
`Smith Pool` whose effective date (its `completion_date`, 5) lies in
`[0, 10]` passes the PDF filter. -/
theorem pdfFilter_keeps_exactly_witness :
    ({ baseReport with client_name := "Smith Pool", completion_date := some 5 } : Report) ∈
      pdfFilter 0 10 "Smith Pool" ""
        [{ baseReport with client_name := "Smith Pool", completion_date := some 5 }] :=
  (pdfFilter_keeps_exactly 0 10 "Smith Pool" "" _ _).mpr
    ⟨List.mem_singleton.mpr rfl, rfl, by decide, by decide,
      fun _ _ => rfl, fun h _ => absurd rfl h⟩

/-- C4: whenever the PDF filter leaves no report, `generateReport` stops
with the `alertNoReports` outcome — the user is notified, no document is
generated and no file save is triggered. -/
theorem generateReport_empty_aborts (s e : Int) (sc se : String) (rs : List Report)
    (h : pdfFilter s e sc se rs = []) :
    generateReport (some s) (some e) sc se rs = .alertNoReports ∧
    ∀ (reports : List Report) (fn : String),
      generateReport (some s) (some e) sc se rs ≠ .generatedPDF reports fn := by
  refine ⟨by simp [generateReport, h], ?_⟩
  intro reports fn
  simp [generateReport, h]

/-- Witness for C4: with date range `[0, 10]` and a fetched collection
holding one non-completed report, the filter result is empty and
generation aborts with the no-reports alert. -/
theorem generateReport_empty_aborts_witness :
    generateReport (some 0) (some 10) "" ""
      [{ baseReport with status := "reported" }] = .alertNoReports :=
  (generateReport_empty_aborts 0 10 "" "" _ (by decide)).1

/-- C7: `computeGrossProfit` equals `total - parts` on present operands and
treats an absent operand as 0; it is invariant under adding the same amount
to both operands; and the displayed value is the profit rounded to 2
decimal places, hence within half a cent (1/200) of the exact profit. -/
theorem computeGrossProfit_props :
    (∀ t p : ℚ, computeGrossProfit (some t) (some p) = t - p) ∧
    (∀ p : Option ℚ, computeGrossProfit none p = 0 - jsOr0 p) ∧
    (∀ t : Option ℚ, computeGrossProfit t none = jsOr0 t - 0) ∧
    (∀ t p d : ℚ, computeGrossProfit (some (t + d)) (some (p + d))
      = computeGrossProfit (some t) (some p)) ∧
    (∀ t p : Option ℚ,
      |displayedGrossProfit t p - computeGrossProfit t p| ≤ 1 / 200) := by
  refine ⟨fun t p => rfl, fun p => rfl, fun t => rfl, ?_, ?_⟩
  · intro t p d
    simp only [computeGrossProfit, jsOr0, Option.getD_some]
    ring
  · intro t p
    have h := abs_sub_round ((computeGrossProfit t p) * 100)
    rw [abs_sub_comm] at h
    have heq : displayedGrossProfit t p - computeGrossProfit t p
        = (((round ((computeGrossProfit t p) * 100) : ℤ) : ℚ)
            - (computeGrossProfit t p) * 100) / 100 := by
      simp only [displayedGrossProfit, formatCurrencyValue, roundTo2, jsOr0,
        Option.getD_some]
      ring
    rw [heq, abs_div]
    have h100 : |(100 : ℚ)| = 100 := by norm_num
    rw [h100]
    linarith

/-- C1: `generatePDF` at the failing input.  Seven filtered reports with
1-line descriptions and no notes (with or without financial data) are laid
out on 4 pages with container counts [2, 2, 2, 1], not on 3 pages with
counts [3, 3, 1]: every container advances the vertical cursor by at least
146 mm (15 + 24 + 12 + 95), so the height guard `yPosition > 297 - 100`
fires after every second container and the `reportsPerPage >= 3` branch of
the code's own `// Fit 3 reports per page` intent is never reached. -/
theorem pdf_pagination_seven_reports :
    paginate (List.replicate 7 ⟨true, 1, false, false⟩) = [2, 2, 2, 1] ∧
    paginate (List.replicate 7 ⟨false, 1, false, false⟩) = [2, 2, 2, 1] ∧
    ([2, 2, 2, 1] : List Nat) ≠ [3, 3, 1] := by
  refine ⟨by decide, by decide, by decide⟩

/-- C2, counterexample: the claim that "a pending flush for one pair is
never cancelled by an edit to a different field or a different report" is
false.  With an edit to `total_cost` of report 1 at t=0 and an edit to
`parts_cost` of report 2 at t=500, the source's shared
`window.financialTimeout` lets only the second flush reach the backend:
the pending flush of pair (1, total_cost) is cancelled, and no flush for
that pair ever fires — while the spec's per-pair timer model
(`pairRunDebounce`) would deliver both flushes. -/
theorem debounce_cross_pair_cancel :
    runDebounce [⟨0, 1, .total_cost, 10⟩, ⟨500, 2, .parts_cost, 20⟩]
      = [⟨1500, 2, .parts_cost, 20⟩] ∧
    pairRunDebounce [⟨0, 1, .total_cost, 10⟩, ⟨500, 2, .parts_cost, 20⟩]
      = [⟨1000, 1, .total_cost, 10⟩, ⟨1500, 2, .parts_cost, 20⟩] ∧
    ∀ p ∈ runDebounce [⟨0, 1, .total_cost, 10⟩, ⟨500, 2, .parts_cost, 20⟩],
      ¬ (p.reportId = 1 ∧ p.field = .total_cost) := by
  refine ⟨by decide, by decide, by decide⟩

/-- Helper: running `lastOf` from an accumulator only matters when the
list holds no matching edit. -/
theorem lastOf_acc (cls : DebField → Bool) (es : List FieldEdit) :
    ∀ acc : Option FieldEdit, lastOf cls acc es = (lastOf cls none es).elim acc some := by
  induction es with
  | nil => intro acc; cases acc <;> rfl
  | cons e es ih =>
    intro acc
    by_cases h : cls e.field
    · simp only [lastOf, h, if_true]
      rw [ih (some e), ih none]
      cases lastOf cls none es <;> rfl
    · simp only [lastOf, h, if_false]
      exact ih acc

/-- Helper: when no pending timer's deadline has passed, `fireDue` is the
identity. -/
theorem fireDue_of_not_due (s : TimerState) (t : Nat)
    (hf : ∀ p, s.financialTimeout = some p → t < p.fire)
    (hn : ∀ p, s.notesTimeout = some p → t < p.fire) :
    fireDue s t = s := by
  obtain ⟨sf, sn, fl⟩ := s
  cases sf with
  | none =>
    cases sn with
    | none => simp [fireDue, fireSlot]
    | some q =>
      have hq : ¬ q.fire ≤ t := by have := hn q rfl; omega
      simp [fireDue, fireSlot, hq]
  | some p =>
    have hp : ¬ p.fire ≤ t := by have := hf p rfl; omega
    cases sn with
    | none => simp [fireDue, fireSlot, hp]
    | some q =>
      have hq : ¬ q.fire ≤ t := by have := hn q rfl; omega
      simp [fireDue, fireSlot, hp, hq]

/-- Helper: over a burst (no timer deadline passes before the next edit),
folding the edit handler leaves exactly the last edit of each class in
that class's single global slot and fires nothing. -/
theorem foldl_applyEdit_burst :
    ∀ (es : List FieldEdit) (s : TimerState),
      (∀ p, s.financialTimeout = some p → ∀ e ∈ es, e.t < p.fire) →
      (∀ p, s.notesTimeout = some p → ∀ e ∈ es, e.t < p.fire) →
      (∀ e ∈ es, ∀ e2 ∈ es, e2.t < e.t + 1000) →
      es.foldl applyEdit s =
        { financialTimeout := (lastOf DebField.isFinancial none es).elim
            s.financialTimeout (fun e => some e.pending),
          notesTimeout := (lastOf (fun f => ! f.isFinancial) none es).elim
            s.notesTimeout (fun e => some e.pending),
          flushed := s.flushed } := by
  intro es
  induction es with
  | nil => intro s _ _ _; rfl
  | cons e es ih =>
    intro s hf hn hb
    have hfire : fireDue s e.t = s :=
      fireDue_of_not_due s e.t
        (fun p hp => hf p hp e (List.mem_cons_self e es))
        (fun p hp => hn p hp e (List.mem_cons_self e es))
    by_cases h : e.field.isFinancial
    · have happ : applyEdit s e = { s with financialTimeout := some e.pending } := by
        unfold applyEdit
        rw [hfire]
        simp [h]
      rw [List.foldl_cons, happ]
      rw [ih { s with financialTimeout := some e.pending }
        (by
          intro p hp e2 he2
          have hpe : p = e.pending := by simpa using hp.symm
          subst hpe
          exact hb e (List.mem_cons_self e es) e2 (List.mem_cons_of_mem e he2))
        (fun p hp e2 he2 => hn p hp e2 (List.mem_cons_of_mem e he2))
        (fun e1 he1 e2 he2 =>
          hb e1 (List.mem_cons_of_mem e he1) e2 (List.mem_cons_of_mem e he2))]
      have hfin_eq : lastOf DebField.isFinancial none (e :: es)
          = lastOf DebField.isFinancial (some e) es := by
        simp [lastOf, h]
      have hnot_eq : lastOf (fun f => ! f.isFinancial) none (e :: es)
          = lastOf (fun f => ! f.isFinancial) none es := by
        simp [lastOf, h]
      rw [hfin_eq, hnot_eq, lastOf_acc DebField.isFinancial es (some e)]
      cases lastOf DebField.isFinancial none es <;> rfl
    · have happ : applyEdit s e = { s with notesTimeout := some e.pending } := by
        unfold applyEdit
        rw [hfire]
        simp [h]
      rw [List.foldl_cons, happ]
      rw [ih { s with notesTimeout := some e.pending }
        (fun p hp e2 he2 => hf p hp e2 (List.mem_cons_of_mem e he2))
        (by
          intro p hp e2 he2
          have hpe : p = e.pending := by simpa using hp.symm
          subst hpe
          exact hb e (List.mem_cons_self e es) e2 (List.mem_cons_of_mem e he2))
        (fun e1 he1 e2 he2 =>
          hb e1 (List.mem_cons_of_mem e he1) e2 (List.mem_cons_of_mem e he2))]
      have hfin_eq : lastOf DebField.isFinancial none (e :: es)
          = lastOf DebField.isFinancial none es := by
        simp [lastOf, h]
      have hnot_eq : lastOf (fun f => ! f.isFinancial) none (e :: es)
          = lastOf (fun f => ! f.isFinancial) (some e) es := by
        simp [lastOf, h]
      rw [hfin_eq, hnot_eq, lastOf_acc (fun f => ! f.isFinancial) es (some e)]
      cases lastOf (fun f => ! f.isFinancial) none es <;> rfl

/-- C2, amended: the debounce timers are keyed by update class, not by
(report, field) pair.  A new edit cancels any pending financial flush if
it edits `total_cost` or `parts_cost` of any report, and any pending notes
flush if it edits `admin_notes` of any report; the two classes run
independently.  Hence after a burst of edits (every pair of edits less
than 1000 ms apart), at most one flush per class reaches the backend, and
it carries the report, field and value of the last edit of that class. -/
theorem debounce_class_timers (es : List FieldEdit)
    (hburst : ∀ e ∈ es, ∀ e2 ∈ es, e2.t < e.t + 1000) :
    runDebounce es =
      optFlush (lastOf DebField.isFinancial none es)
        ++ optFlush (lastOf (fun f => ! f.isFinancial) none es) := by
  unfold runDebounce
  rw [foldl_applyEdit_burst es initTimers
    (fun p hp => by simp [initTimers] at hp)
    (fun p hp => by simp [initTimers] at hp)
    hburst]
  unfold drainTimers
  cases lastOf DebField.isFinancial none es <;>
    cases lastOf (fun f => ! f.isFinancial) none es <;>
    simp [optFlush, initTimers]

/-- Witness for C2 (the spec's coalescing scenario): three rapid edits to
`admin_notes` of report 5 at t = 0, 100, 200 produce exactly one flush,
carrying the third value. -/
theorem debounce_class_timers_witness :
    runDebounce [⟨0, 5, .admin_notes, 1⟩, ⟨100, 5, .admin_notes, 2⟩,
        ⟨200, 5, .admin_notes, 3⟩]
      = [⟨1200, 5, .admin_notes, 3⟩] := by
  rw [debounce_class_timers _ (by decide)]
  rfl

end RogReport
